import Mathlib

/-!
Verification of the section ranker (`src/Challenge_1b/src/section_ranker.py`).

The Python module is a single class `SectionRanker` whose methods are pure
functions of their arguments.  We embed it shallowly:

* Python numbers (ints and floats, `math.log`) are modelled as real numbers;
  the transcendental `math.log` makes the score-valued definitions
  noncomputable, while all string and tokenisation functions stay computable.
* A section (`Dict[str, Any]`) is an association list of string keys and
  `Val` values (strings or numbers); `dict.get`, `dict.copy` and dict
  assignment are modelled by `dictLookup` / `dictInsert`.
* `Counter` is modelled by its count function, membership being a positive
  count.
* `list.sort(key=..., reverse=True)` is specified by Python to be a stable
  sort; it is embedded as `List.insertionSort` with the descending relation
  on the sort key, which is stable in the same sense.
-/

namespace SectionRanker

/-- Python values stored in a section dictionary: text and numbers
(Python ints and floats are modelled together as real numbers). -/
inductive Val where
  | vstr : String → Val
  | vnum : ℝ → Val

/-- A Python `Dict[str, Any]` modelled as an association list. -/
abbrev PyDict := List (String × Val)

/-- A Python `Dict[str, str]`, used for the persona and job records. -/
abbrev StrDict := List (String × String)

/-- Value of a key in a section dictionary, `none` when absent. -/
def dictLookup (d : PyDict) (k : String) : Option Val :=
  match d with
  | [] => none
  | p :: rest => if p.1 == k then some p.2 else dictLookup rest k

/-- Python dict assignment `d[k] = v`: overwrite the binding in place when the
key exists, append it otherwise. -/
def dictInsert (d : PyDict) (k : String) (v : Val) : PyDict :=
  match d with
  | [] => [(k, v)]
  | p :: rest => if p.1 == k then (k, v) :: rest else p :: dictInsert rest k v

/-- Python `d.get(k, "")` on a string dictionary. -/
def strDictGet (d : StrDict) (k : String) : String :=
  match d with
  | [] => ""
  | p :: rest => if p.1 == k then p.2 else strDictGet rest k

/-- Python `str.split()` with no separator: the maximal non-empty runs of
non-whitespace characters, i.e. split the character list at every whitespace
character and drop the empty pieces. -/
def pySplit (s : String) : List String :=
  ((s.toList.splitOnP Char.isWhitespace).filter (fun cs => !cs.isEmpty)).map
    (fun cs => String.mk cs)

/-- Python `str.lower()`: lower-case every character of the string. -/
def pyLower (s : String) : String :=
  String.mk (s.toList.map Char.toLower)

/-- Python `doc_section.get("content", "")`: the text content of a section,
`""` when the field is absent (the data model types a present `content` field
as text). -/
def contentOf (d : PyDict) : String :=
  match dictLookup d "content" with
  | some (Val.vstr s) => s
  | _ => ""

/-- Python `doc_section.get("position", 0)`: the numeric position of a
section, `0` when the field is absent (the data model types a present
`position` field as a number). -/
def positionOf (d : PyDict) : ℝ :=
  match dictLookup d "position" with
  | some (Val.vnum x) => x
  | _ => 0

/-- Embedding of `SectionRanker._compute_position_weight`. -/
noncomputable def compute_position_weight (doc_section : PyDict) : ℝ :=
  let idx := positionOf doc_section
  if idx < 3 then 1.0
  else if idx < 10 then 0.8
  else 0.6

/-- Embedding of `SectionRanker._extract_context_keywords`. -/
def extract_context_keywords (role_info task_info : String) : Finset String :=
  let combined_text := pyLower (role_info ++ " " ++ task_info)
  ((pySplit combined_text).filter (fun word => word.length > 2)).toFinset

/-- Embedding of `SectionRanker._calculate_word_frequencies`: the returned
`Counter` is modelled by its count function. -/
def calculate_word_frequencies (text_content : String) : String → ℕ :=
  fun w => (pySplit (pyLower text_content)).count w

/-- The context dictionary built by `_build_persona_context` always has
exactly the keys `persona_role` and `job_context`, so it is modelled as a
structure with those two fields. -/
structure Context where
  persona_role : String
  job_context : String

/-- Embedding of `SectionRanker._build_persona_context`. -/
def build_persona_context (user_persona job_details : StrDict) : Context :=
  { persona_role := strDictGet user_persona "role"
    job_context := strDictGet job_details "task" }

/-- Embedding of `SectionRanker._assess_content_length`. -/
noncomputable def assess_content_length (text_content : String) : ℝ :=
  let word_count := (pySplit text_content).length
  if word_count < 10 then 0.3
  else if word_count < 50 then 0.8
  else if word_count < 200 then 1.0
  else if word_count < 500 then 0.7
  else 0.4

/-- Embedding of `SectionRanker._sum_keyword_scores`: the Python loop
accumulates real additions over the keyword set, hence it computes the finite
sum of the per-keyword contributions; `keyword in word_freq` is `Counter`
membership, i.e. a positive count. -/
noncomputable def sum_keyword_scores (keywords : Finset String)
    (word_freq : String → ℕ) (total_count : ℕ) : ℝ :=
  ∑ keyword ∈ keywords,
    if 0 < word_freq keyword then
      (word_freq keyword : ℝ) / (total_count : ℝ) *
        Real.log (1 + 1 / ((max 1 (word_freq keyword) : ℕ) : ℝ))
    else 0

/-- Embedding of `SectionRanker._compute_tfidf_relevance`. -/
noncomputable def compute_tfidf_relevance (text_content : String)
    (context_data : Context) : ℝ :=
  let role_keywords :=
    extract_context_keywords context_data.persona_role context_data.job_context
  if role_keywords = ∅ then 0.5
  else
    let word_frequencies := calculate_word_frequencies text_content
    let total_words := (pySplit (pyLower text_content)).length
    let relevance_sum := sum_keyword_scores role_keywords word_frequencies total_words
    min relevance_sum 1.0

/-- Embedding of `SectionRanker._compute_final_score`. -/
noncomputable def compute_final_score (doc_section : PyDict)
    (context_data : Context) : ℝ :=
  let section_content := contentOf doc_section
  if section_content = "" then 0.0
  else
    let semantic_score := compute_tfidf_relevance section_content context_data
    let length_weight := assess_content_length section_content
    let position_weight := compute_position_weight doc_section
    min (0.6 * semantic_score + 0.3 * length_weight + 0.1 * position_weight) 1.0

/-- The sort key `x.get('relevance_score', 0)` used by `rank_sections`. -/
def scoreKey (r : PyDict) : ℝ :=
  match dictLookup r "relevance_score" with
  | some (Val.vnum x) => x
  | _ => 0

/-- The record built for one section inside the loop of `rank_sections`:
`doc_section.copy()` followed by setting `relevance_score` and
`final_relevance_score` to the computed score. -/
noncomputable def annotateSection (context_data : Context) (doc_section : PyDict) : PyDict :=
  let relevance_value := compute_final_score doc_section context_data
  dictInsert (dictInsert doc_section "relevance_score" (Val.vnum relevance_value))
    "final_relevance_score" (Val.vnum relevance_value)

/-- The descending comparison of `ranked_sections.sort(key=..., reverse=True)`:
`a` may come before `b` when its key is at least `b`'s. -/
def rankLE (a b : PyDict) : Prop := scoreKey b ≤ scoreKey a

noncomputable instance : DecidableRel rankLE := fun _ _ => Real.decidableLE _ _

instance : IsTotal PyDict rankLE := ⟨fun a b => le_total (scoreKey b) (scoreKey a)⟩

instance : IsTrans PyDict rankLE := ⟨fun _ _ _ h1 h2 => le_trans h2 h1⟩

/-- Embedding of `SectionRanker.rank_sections`. -/
noncomputable def rank_sections (doc_sections : List PyDict)
    (user_persona job_details : StrDict) : List PyDict :=
  if doc_sections.isEmpty then []
  else
    let context_data := build_persona_context user_persona job_details
    let ranked_sections := doc_sections.map (annotateSection context_data)
    List.insertionSort rankLE ranked_sections

/-- Specification-side length bracket table (spec 4.5): half-open brackets on
the whitespace-token count, written with the spec's explicit interval bounds. -/
noncomputable def lengthBracketSpec (n : ℕ) : ℝ :=
  if n < 10 then 0.3
  else if 10 ≤ n ∧ n < 50 then 0.8
  else if 50 ≤ n ∧ n < 200 then 1.0
  else if 200 ≤ n ∧ n < 500 then 0.7
  else 0.4

/-- Specification-side position prominence table (spec 4.6), written with the
spec's explicit interval bounds. -/
noncomputable def positionBracketSpec (p : ℝ) : ℝ :=
  if p < 3 then 1.0
  else if 3 ≤ p ∧ p < 10 then 0.8
  else 0.6

/-- The spec's position table, with its redundant lower bounds dropped: under
the first guard's negation `3 ≤ p` is automatic, giving the same if-chain shape
as the code. -/
theorem positionBracketSpec_eq (p : ℝ) :
    positionBracketSpec p = if p < 3 then 1.0 else if p < 10 then 0.8 else 0.6 := by
  unfold positionBracketSpec
  by_cases h1 : p < 3
  · simp [h1]
  · by_cases h2 : p < 10
    · simp [h1, h2, not_lt.mp h1]
    · simp [h1, h2]

/-- C4: for every persona and job, ranking an empty sequence of sections
returns the empty sequence (and, the embedding being total, does not fail). -/
theorem rank_sections_empty (user_persona job_details : StrDict) :
    rank_sections [] user_persona job_details = [] := rfl

/-- C8: the length scorer maps the whitespace-token count of the content
through the spec's half-open brackets, and the bracket table yields the
weights 0.3, 0.8, 0.8, 1.0, 1.0, 0.7, 0.7, 0.4 at the boundary token counts
9, 10, 49, 50, 199, 200, 499, 500. -/
theorem assess_content_length_brackets :
    (∀ s : String, assess_content_length s = lengthBracketSpec (pySplit s).length) ∧
    lengthBracketSpec 9 = 0.3 ∧ lengthBracketSpec 10 = 0.8 ∧
    lengthBracketSpec 49 = 0.8 ∧ lengthBracketSpec 50 = 1.0 ∧
    lengthBracketSpec 199 = 1.0 ∧ lengthBracketSpec 200 = 0.7 ∧
    lengthBracketSpec 499 = 0.7 ∧ lengthBracketSpec 500 = 0.4 := by
  refine ⟨fun s => ?_, ?_, ?_, ?_, ?_, ?_, ?_, ?_, ?_⟩
  · simp only [assess_content_length, lengthBracketSpec]
    split_ifs <;> first | rfl | omega
  all_goals norm_num [lengthBracketSpec]

/-- C9: the position scorer equals the spec's bracket table (1.0 below 3, 0.8
from 3 up to 10, 0.6 from 10 on) applied to the section's position; a missing
`position` field is read as position 0 and scored 1.0; and the table is
antitone, so decreasing the position never decreases the positional
sub-score. -/
theorem compute_position_weight_spec :
    (∀ d : PyDict, compute_position_weight d = positionBracketSpec (positionOf d)) ∧
    (∀ d : PyDict, dictLookup d "position" = none →
      positionOf d = 0 ∧ compute_position_weight d = 1.0) ∧
    (∀ p q : ℝ, p ≤ q → positionBracketSpec q ≤ positionBracketSpec p) := by
  refine ⟨fun d => ?_, fun d h => ?_, fun p q hpq => ?_⟩
  · rw [positionBracketSpec_eq]; rfl
  · have h0 : positionOf d = 0 := by simp [positionOf, h]
    refine ⟨h0, ?_⟩
    simp only [compute_position_weight, h0]
    norm_num
  · rw [positionBracketSpec_eq, positionBracketSpec_eq]
    split_ifs <;> linarith

/-- Witness for C9 at the empty record and the concrete positions 2 and 10. -/
theorem compute_position_weight_spec_witness :
    (positionOf [] = 0 ∧ compute_position_weight [] = 1.0) ∧
    positionBracketSpec 10 ≤ positionBracketSpec 2 :=
  ⟨compute_position_weight_spec.2.1 [] rfl,
   compute_position_weight_spec.2.2 2 10 (by norm_num)⟩

/-- C5: when the `content` field is absent or holds the empty text, the
composite score is exactly 0.0, for every context and in particular every
position; the early return in the embedding short-circuits the semantic,
length and position sub-scorers. -/
theorem compute_final_score_empty_content (d : PyDict) (ctx : Context)
    (h : dictLookup d "content" = none ∨ dictLookup d "content" = some (Val.vstr "")) :
    compute_final_score d ctx = 0 := by
  have hc : contentOf d = "" := by
    rcases h with h | h <;> simp [contentOf, h]
  simp [compute_final_score, hc]
  norm_num

/-- Witness for C5 at a record with no `content` field. -/
theorem compute_final_score_empty_content_witness :
    compute_final_score [] (build_persona_context [] []) = 0 :=
  compute_final_score_empty_content [] _ (Or.inl rfl)

/-- C6: whenever the keyword set extracted from the context is empty — and it
is empty when the persona role and the job task are both empty — the TF-IDF
relevance scorer returns exactly 0.5, for every content text. -/
theorem compute_tfidf_relevance_default :
    extract_context_keywords "" "" = ∅ ∧
    ∀ (text : String) (ctx : Context),
      extract_context_keywords ctx.persona_role ctx.job_context = ∅ →
      compute_tfidf_relevance text ctx = 0.5 := by
  refine ⟨by decide, fun text ctx h => ?_⟩
  simp [compute_tfidf_relevance, h]

/-- Witness for C6 at the all-empty context. -/
theorem compute_tfidf_relevance_default_witness :
    compute_tfidf_relevance "math is fun" (Context.mk "" "") = 0.5 :=
  compute_tfidf_relevance_default.2 "math is fun" (Context.mk "" "") (by decide)

/-- C7: with a non-empty keyword set, the TF-IDF relevance score is the clamp
min(1.0, S) of the sum S, over the keywords that occur in the lower-cased
content's token-frequency map, of (count / total_words) · ln(1 + 1/max(1,
count)); keywords absent from the content contribute 0. -/
theorem compute_tfidf_relevance_formula (text : String) (ctx : Context)
    (h : extract_context_keywords ctx.persona_role ctx.job_context ≠ ∅) :
    compute_tfidf_relevance text ctx =
      min 1.0 (∑ kw ∈ extract_context_keywords ctx.persona_role ctx.job_context,
        if 0 < calculate_word_frequencies text kw then
          (calculate_word_frequencies text kw : ℝ) /
              ((pySplit (pyLower text)).length : ℝ) *
            Real.log (1 + 1 / ((max 1 (calculate_word_frequencies text kw) : ℕ) : ℝ))
        else 0) := by
  simp only [compute_tfidf_relevance, sum_keyword_scores, if_neg h]
  rw [min_comm]

/-- Witness for C7 at the spec's end-to-end example input. -/
theorem compute_tfidf_relevance_formula_witness :
    compute_tfidf_relevance "math is fun and math is useful"
        (Context.mk "Student" "learn math") =
      min 1.0 (∑ kw ∈ extract_context_keywords "Student" "learn math",
        if 0 < calculate_word_frequencies "math is fun and math is useful" kw then
          (calculate_word_frequencies "math is fun and math is useful" kw : ℝ) /
              ((pySplit (pyLower "math is fun and math is useful")).length : ℝ) *
            Real.log (1 + 1 /
              ((max 1 (calculate_word_frequencies "math is fun and math is useful" kw) : ℕ) : ℝ))
        else 0) :=
  compute_tfidf_relevance_formula "math is fun and math is useful"
    (Context.mk "Student" "learn math") (by decide)

/-- C10: the keyword-score summation divides only under the guard that the
keyword is present in the token-frequency map, and that guard forces both
denominators to be at least 1: the keyword's count is positive and the
lower-cased content then has at least one token; content with zero tokens
(e.g. whitespace-only text) has keyword sum exactly 0. -/
theorem sum_keyword_scores_safe :
    (∀ text kw : String,
      0 < calculate_word_frequencies text kw →
      1 ≤ calculate_word_frequencies text kw ∧ 1 ≤ (pySplit (pyLower text)).length) ∧
    (∀ (text : String) (kws : Finset String), pySplit (pyLower text) = [] →
      sum_keyword_scores kws (calculate_word_frequencies text)
        ((pySplit (pyLower text)).length) = 0) := by
  constructor
  · intro text kw hpos
    have hmem : kw ∈ pySplit (pyLower text) := List.count_pos_iff.mp hpos
    exact ⟨hpos, List.length_pos_of_mem hmem⟩
  · intro text kws h
    have hz : ∀ kw, calculate_word_frequencies text kw = 0 := fun kw => by
      simp [calculate_word_frequencies, h]
    simp [sum_keyword_scores, hz]

/-- Witness for C10 at a content with a repeated keyword and at a
whitespace-only content. -/
theorem sum_keyword_scores_safe_witness :
    (1 ≤ calculate_word_frequencies "dog cat" "dog" ∧
      1 ≤ (pySplit (pyLower "dog cat")).length) ∧
    sum_keyword_scores {"abc"} (calculate_word_frequencies "   ")
      ((pySplit (pyLower "   ")).length) = 0 :=
  ⟨sum_keyword_scores_safe.1 "dog cat" "dog" (by decide),
   sum_keyword_scores_safe.2 "   " {"abc"} (by decide)⟩

/-- Every per-keyword contribution of the keyword-score sum is non-negative,
hence so is the sum. -/
theorem sum_keyword_scores_nonneg (kws : Finset String) (freq : String → ℕ) (total : ℕ) :
    0 ≤ sum_keyword_scores kws freq total := by
  refine Finset.sum_nonneg fun kw _ => ?_
  split_ifs
  · refine mul_nonneg (div_nonneg (by positivity) (by positivity)) (Real.log_nonneg ?_)
    have h0 : (0:ℝ) ≤ 1 / ((max 1 (freq kw) : ℕ) : ℝ) := by positivity
    linarith
  · exact le_refl 0

/-- The semantic relevance score always lies in [0, 1]. -/
theorem compute_tfidf_relevance_mem (text : String) (ctx : Context) :
    0 ≤ compute_tfidf_relevance text ctx ∧ compute_tfidf_relevance text ctx ≤ 1 := by
  simp only [compute_tfidf_relevance]
  split_ifs
  · norm_num
  · constructor
    · exact le_min (sum_keyword_scores_nonneg _ _ _) (by norm_num)
    · exact (min_le_right _ _).trans_eq (by norm_num)

/-- The length weight always lies in [0, 1]. -/
theorem assess_content_length_mem (s : String) :
    0 ≤ assess_content_length s ∧ assess_content_length s ≤ 1 := by
  simp only [assess_content_length]
  split_ifs <;> norm_num

/-- The position weight always lies in [0, 1]. -/
theorem compute_position_weight_mem (d : PyDict) :
    0 ≤ compute_position_weight d ∧ compute_position_weight d ≤ 1 := by
  simp only [compute_position_weight]
  split_ifs <;> norm_num

/-- C1: for a section whose content is non-empty text, the composite score is
the clamp min(0.6·semantic + 0.3·length + 0.1·position, 1.0) of the fixed
linear blend of the three sub-scores, and this value lies in [0, 1]. -/
theorem compute_final_score_spec (d : PyDict) (ctx : Context)
    (h : contentOf d ≠ "") :
    compute_final_score d ctx =
      min (0.6 * compute_tfidf_relevance (contentOf d) ctx
          + 0.3 * assess_content_length (contentOf d)
          + 0.1 * compute_position_weight d) 1.0 ∧
    0 ≤ compute_final_score d ctx ∧ compute_final_score d ctx ≤ 1 := by
  have heq : compute_final_score d ctx =
      min (0.6 * compute_tfidf_relevance (contentOf d) ctx
          + 0.3 * assess_content_length (contentOf d)
          + 0.1 * compute_position_weight d) 1.0 := by
    simp only [compute_final_score, if_neg h]
  obtain ⟨h1a, h1b⟩ := compute_tfidf_relevance_mem (contentOf d) ctx
  obtain ⟨h2a, h2b⟩ := assess_content_length_mem (contentOf d)
  obtain ⟨h3a, h3b⟩ := compute_position_weight_mem d
  refine ⟨heq, ?_, ?_⟩
  · rw [heq]
    exact le_min (by linarith) (by norm_num)
  · rw [heq]
    exact (min_le_right _ _).trans_eq (by norm_num)

/-- Witness for C1 at a concrete section and context. -/
theorem compute_final_score_spec_witness :
    compute_final_score [("content", Val.vstr "math notes")]
        (Context.mk "Student" "learn math") =
      min (0.6 * compute_tfidf_relevance
            (contentOf [("content", Val.vstr "math notes")])
            (Context.mk "Student" "learn math")
          + 0.3 * assess_content_length (contentOf [("content", Val.vstr "math notes")])
          + 0.1 * compute_position_weight [("content", Val.vstr "math notes")]) 1.0 ∧
    0 ≤ compute_final_score [("content", Val.vstr "math notes")]
        (Context.mk "Student" "learn math") ∧
    compute_final_score [("content", Val.vstr "math notes")]
        (Context.mk "Student" "learn math") ≤ 1 :=
  compute_final_score_spec [("content", Val.vstr "math notes")]
    (Context.mk "Student" "learn math") (by decide)

/-- Ranking unfolds, in both the empty and the non-empty case, to the stable
descending sort of the annotated copies of the sections. -/
theorem rank_sections_eq (doc_sections : List PyDict)
    (user_persona job_details : StrDict) :
    rank_sections doc_sections user_persona job_details =
      List.insertionSort rankLE
        (doc_sections.map
          (annotateSection (build_persona_context user_persona job_details))) := by
  cases doc_sections with
  | nil => rfl
  | cons hd tl => rfl

/-- Looking a key up after a dict assignment returns the assigned value at
that key and leaves every other key's value unchanged. -/
theorem dictLookup_dictInsert (d : PyDict) (k : String) (v : Val) (k' : String) :
    dictLookup (dictInsert d k v) k' =
      if k' = k then some v else dictLookup d k' := by
  induction d with
  | nil =>
    by_cases h : k' = k
    · subst h; simp [dictInsert, dictLookup]
    · simp [dictInsert, dictLookup, h, Ne.symm h]
  | cons p rest ih =>
    by_cases hp : p.1 = k
    · subst hp
      by_cases h : k' = p.1
      · subst h; simp [dictInsert, dictLookup]
      · simp [dictInsert, dictLookup, h, Ne.symm h]
    · have hp' : (p.1 == k) = false := by simp [hp]
      by_cases h : p.1 = k'
      · have hk : k' ≠ k := fun hh => hp (h.trans hh)
        simp [dictInsert, dictLookup, hp', h, hk]
      · have h' : (p.1 == k') = false := by simp [h]
        simp [dictInsert, dictLookup, hp', h', ih]

/-- The sort key of an annotated record is the section's computed score. -/
theorem scoreKey_annotateSection (ctx : Context) (d : PyDict) :
    scoreKey (annotateSection ctx d) = compute_final_score d ctx := by
  simp [scoreKey, annotateSection, dictLookup_dictInsert]

/-- C2: the ranker's output is sorted by `relevance_score` descending, and the
sort is stable: two annotated records in input order with equal sort keys
appear in the same order in the output. -/
theorem rank_sections_sorted_stable (doc_sections : List PyDict)
    (user_persona job_details : StrDict) :
    List.Sorted (fun a b => scoreKey b ≤ scoreKey a)
      (rank_sections doc_sections user_persona job_details) ∧
    ∀ a b : PyDict,
      List.Sublist [a, b]
        (doc_sections.map
          (annotateSection (build_persona_context user_persona job_details))) →
      scoreKey a = scoreKey b →
      List.Sublist [a, b]
        (rank_sections doc_sections user_persona job_details) := by
  rw [rank_sections_eq]
  constructor
  · exact List.sorted_insertionSort rankLE _
  · intro a b hsub heq
    exact List.pair_sublist_insertionSort (le_of_eq heq.symm) hsub

/-- Witness for C2: two sections with equal scores keep their input order. -/
theorem rank_sections_sorted_stable_witness :
    List.Sublist
      [annotateSection (build_persona_context [] []) [("tag", Val.vstr "a")],
       annotateSection (build_persona_context [] []) []]
      (rank_sections [[("tag", Val.vstr "a")], []] [] []) := by
  refine (rank_sections_sorted_stable [[("tag", Val.vstr "a")], []] [] []).2 _ _ ?_ ?_
  · simp only [List.map_cons, List.map_nil]
    exact List.Sublist.refl _
  · rw [scoreKey_annotateSection, scoreKey_annotateSection]
    have h1 : compute_final_score [("tag", Val.vstr "a")]
        (build_persona_context [] []) = 0 := by
      have hc : contentOf [("tag", Val.vstr "a")] = "" := by decide
      simp [compute_final_score, hc]
      norm_num
    have h2 : compute_final_score [] (build_persona_context [] []) = 0 := by
      simp [compute_final_score, contentOf, dictLookup]
      norm_num
    rw [h1, h2]

/-- C3 counterexample: a section that already carries a `relevance_score`
field (value 42) does not keep that value in the output — the ranker rebinds
the field to the computed score (here 0.0, the content being empty), so not
every input field reaches the output with unchanged value. -/
theorem rank_sections_overwrites_existing_score :
    dictLookup [("content", Val.vstr ""), ("relevance_score", Val.vnum 42)]
        "relevance_score" = some (Val.vnum 42) ∧
    rank_sections [[("content", Val.vstr ""), ("relevance_score", Val.vnum 42)]] [] [] =
      [[("content", Val.vstr ""), ("relevance_score", Val.vnum 0),
        ("final_relevance_score", Val.vnum 0)]] ∧
    Val.vnum (42 : ℝ) ≠ Val.vnum 0 := by
  have hscore : compute_final_score
      [("content", Val.vstr ""), ("relevance_score", Val.vnum 42)]
      (build_persona_context [] []) = 0 := by
    have hc : contentOf
        [("content", Val.vstr ""), ("relevance_score", Val.vnum 42)] = "" := by decide
    simp [compute_final_score, hc]
    norm_num
  refine ⟨rfl, ?_, ?_⟩
  · rw [rank_sections_eq]
    simp only [List.map_cons, List.map_nil, annotateSection, hscore]
    norm_num [dictInsert, List.insertionSort]
    rw [if_neg (by decide), if_neg (by decide)]
  · intro hcontra
    injection hcontra with h42
    exact (by norm_num : (42 : ℝ) ≠ 0) h42

/-- C3 amended: the ranker never mutates its input records (the embedding of
`doc_section.copy()` is purely functional, so inputs are unchanged by
construction), and every output record arises from an input section by
binding `relevance_score` and `final_relevance_score` to the same computed
score — overwriting those two keys if the input already carried them.  Hence
every field other than those two keeps its input value in the output, the two
score fields hold the computed score, and no field outside the input's fields
plus those two appears. -/
theorem rank_sections_fields (doc_sections : List PyDict)
    (user_persona job_details : StrDict) (r : PyDict)
    (hr : r ∈ rank_sections doc_sections user_persona job_details) :
    ∃ s ∈ doc_sections,
      r = annotateSection (build_persona_context user_persona job_details) s ∧
      (∀ k, k ≠ "relevance_score" → k ≠ "final_relevance_score" →
        dictLookup r k = dictLookup s k) ∧
      dictLookup r "relevance_score" =
        some (Val.vnum (compute_final_score s
          (build_persona_context user_persona job_details))) ∧
      dictLookup r "final_relevance_score" =
        some (Val.vnum (compute_final_score s
          (build_persona_context user_persona job_details))) ∧
      (∀ k, (dictLookup r k).isSome →
        k = "relevance_score" ∨ k = "final_relevance_score" ∨
          (dictLookup s k).isSome) := by
  rw [rank_sections_eq, List.mem_insertionSort] at hr
  obtain ⟨s, hs, rfl⟩ := List.mem_map.mp hr
  refine ⟨s, hs, rfl, ?_, ?_, ?_, ?_⟩
  · intro k hk1 hk2
    simp [annotateSection, dictLookup_dictInsert, hk1, hk2]
  · simp [annotateSection, dictLookup_dictInsert]
  · simp [annotateSection, dictLookup_dictInsert]
  · intro k hk
    by_cases h1 : k = "relevance_score"
    · exact Or.inl h1
    by_cases h2 : k = "final_relevance_score"
    · exact Or.inr (Or.inl h2)
    refine Or.inr (Or.inr ?_)
    simpa [annotateSection, dictLookup_dictInsert, h1, h2] using hk

/-- Witness for the amended C3 at a one-section input. -/
theorem rank_sections_fields_witness :
    ∃ s ∈ [([("hdr", Val.vstr "intro")] : PyDict)],
      annotateSection (build_persona_context [] []) [("hdr", Val.vstr "intro")] =
        annotateSection (build_persona_context [] []) s ∧
      (∀ k, k ≠ "relevance_score" → k ≠ "final_relevance_score" →
        dictLookup (annotateSection (build_persona_context [] [])
          [("hdr", Val.vstr "intro")]) k = dictLookup s k) ∧
      dictLookup (annotateSection (build_persona_context [] [])
          [("hdr", Val.vstr "intro")]) "relevance_score" =
        some (Val.vnum (compute_final_score s (build_persona_context [] []))) ∧
      dictLookup (annotateSection (build_persona_context [] [])
          [("hdr", Val.vstr "intro")]) "final_relevance_score" =
        some (Val.vnum (compute_final_score s (build_persona_context [] []))) ∧
      (∀ k, (dictLookup (annotateSection (build_persona_context [] [])
          [("hdr", Val.vstr "intro")]) k).isSome →
        k = "relevance_score" ∨ k = "final_relevance_score" ∨
          (dictLookup s k).isSome) := by
  refine rank_sections_fields [[("hdr", Val.vstr "intro")]] [] [] _ ?_
  have h : rank_sections [[("hdr", Val.vstr "intro")]] [] [] =
      [annotateSection (build_persona_context [] []) [("hdr", Val.vstr "intro")]] := by
    rw [rank_sections_eq]; rfl
  rw [h]
  exact List.mem_singleton_self _

end SectionRanker
